import Mathlib

/-!
Verification of the MuseScore capture tool (src/src/capture.py and src/app.py)
against its natural-language specification.

The Python source is shallowly embedded: pure helpers become Lean functions,
and the browser/network/disk environment is abstracted into explicit model
parameters (which URLs the page exposes at each scroll step, what each HTTP
request returns, which conversions succeed, which files exist on disk).
-/

namespace Capture

/-- Raw resource bytes are modelled as a list of byte values. -/
abbrev Bytes := List Nat

/-- Truthiness of a Python `Optional[bytes]` value: `None` and the empty
byte string `b""` are falsy, any non-empty byte string is truthy.  This is
the condition tested by `if svg_content:` in `capture_score_pages`. -/
def truthyBytes : Option Bytes → Bool
  | some b => !b.isEmpty
  | none => false

/-- Numeric value of a list of ASCII digit characters, embedding Python's
`int(...)` applied to the digit group captured by a regex. -/
def digitsToNat (ds : List Char) : Nat :=
  ds.foldl (fun a c => a * 10 + (c.toNat - '0'.toNat)) 0

/-- Helper for `extract_page_num`: scan the character list left to right for
the first position where `score_` is immediately followed by at least one
digit, mirroring `re.search(r'score_(\d+)', url)`; return the value of the
maximal digit run there, or `none` when no position matches. -/
def findScoreNum : List Char → Option Nat
  | [] => none
  | c :: rest =>
    let tag := "score_".toList
    let here := c :: rest
    if tag.isPrefixOf here then
      let after := here.drop tag.length
      let ds := after.takeWhile Char.isDigit
      if ds.isEmpty then findScoreNum rest else some (digitsToNat ds)
    else findScoreNum rest

/-- Embedding of `MuseScoreCapture._extract_page_num`: the page index parsed
from a URL via `re.search(r'score_(\d+)', url)`, with sentinel `0` when the
pattern does not occur. -/
def extract_page_num (url : String) : Nat :=
  (findScoreNum url.toList).getD 0

/-- Python-set accumulation used by `_extract_svg_urls(url_set)`: add each
extracted URL to the accumulated collection unless already present.  The
collection is represented as a duplicate-free list. -/
def unionInto (acc : List String) (l : List String) : List String :=
  l.foldl (fun a u => if u ∈ a then a else a ++ [u]) acc

/-- Environment model for one discovery run (`_collect_all_svg_urls`): which
URLs the DOM extraction yields before any scrolling (`initialUrls`), which it
yields after the k-th scroll step (`scrollUrls k`, k ≥ 1), and whether a
scrollable container was found (`hasScroller`; when false the scroll loop is
skipped entirely, as in the source). -/
structure PageModel where
  initialUrls : List String
  scrollUrls : Nat → List String
  hasScroller : Bool

/-- Accumulated URL collection after `k` scroll iterations: the pre-loop
extraction unioned with the extractions of scroll steps `1..k`. -/
def accAfter (pm : PageModel) : Nat → List String
  | 0 => unionInto [] pm.initialUrls
  | k + 1 => unionInto (accAfter pm k) (pm.scrollUrls (k + 1))

/-- Scroll loop of `_collect_all_svg_urls`: at most `remaining` further
iterations, each scrolling, re-extracting and unioning, then breaking once
the accumulated collection has at least `expected` elements.  Returns the
final accumulated collection and the number of iterations performed. -/
def collectLoopAux (pm : PageModel) (expected : Nat) :
    Nat → Nat → List String → List String × Nat
  | _, 0, acc => (acc, 0)
  | iter, r + 1, acc =>
    let acc2 := unionInto acc (pm.scrollUrls (iter + 1))
    if expected ≤ acc2.length then (acc2, 1)
    else
      let res := collectLoopAux pm expected (iter + 1) r acc2
      (res.1, res.2 + 1)

/-- Key order used in `sorted(collected_urls, key=lambda x: self._extract_page_num(x))`. -/
def urlKeyLE (a b : String) : Prop :=
  extract_page_num a ≤ extract_page_num b

instance : DecidableRel urlKeyLE := fun a b =>
  inferInstanceAs (Decidable (extract_page_num a ≤ extract_page_num b))

instance : IsTotal String urlKeyLE :=
  ⟨fun a b => Nat.le_total (extract_page_num a) (extract_page_num b)⟩

instance : IsTrans String urlKeyLE :=
  ⟨fun _ _ _ h1 h2 => Nat.le_trans h1 h2⟩

/-- Embedding of `MuseScoreCapture._collect_all_svg_urls(expected_pages)`:
extract the initially visible URLs, run the bounded scroll loop (budget
`expected + 5`) when a scroller is present, and return the accumulated URLs
sorted by parsed page number, together with the number of scroll iterations
performed. -/
def collect_all_svg_urls (pm : PageModel) (expected : Nat) : List String × Nat :=
  let acc0 := unionInto [] pm.initialUrls
  let step :=
    if pm.hasScroller then collectLoopAux pm expected 0 (expected + 5) acc0
    else (acc0, 0)
  (List.insertionSort urlKeyLE step.1, step.2)

/-- Outcome of one HTTP request issued by `self.page.request.get(url)`:
either a response arrived (with its `ok` flag and body bytes) or the request
raised a transport/other exception. -/
inductive FetchOutcome where
  | resp (ok : Bool) (body : Bytes)
  | exn
deriving DecidableEq

/-- Embedding of `MuseScoreCapture._download_svg`: return the body when the
response is ok, `None` on a non-success status, and `None` when the request
raised (the `except` branch).  Totality of this function is the embedding of
"never propagates an exception". -/
def download_svg : FetchOutcome → Option Bytes
  | .resp ok body => if ok then some body else none
  | .exn => none

/-- Approximation of Python's Unicode regex class `\w` (used in
`re.sub(r'[^\w\s-]', '', title)`): ASCII alphanumerics, underscore, and the
Latin-1 Supplement / Latin Extended letters (U+00C0–U+024F minus the two
arithmetic signs × U+00D7 and ÷ U+00F7), which covers the accented letters
appearing in score titles such as `ü`. -/
def pyIsWordChar (c : Char) : Bool :=
  c.isAlphanum || c = '_' ||
  (0xC0 ≤ c.toNat && c.toNat ≤ 0x24F && c.toNat != 0xD7 && c.toNat != 0xF7)

/-- Python regex class `\s` restricted to its ASCII members. -/
def pyIsSpaceChar (c : Char) : Bool :=
  c = ' ' || c = '\t' || c = '\n' || c = '\r' || c.toNat = 0xB || c.toNat = 0xC

/-- Embedding of `re.sub(r'[^\w\s-]', '', info["title"])[:50]`: drop every
character that is not word/space/hyphen, then truncate to 50 characters. -/
def safe_title (title : String) : String :=
  String.mk
    ((title.toList.filter (fun c => pyIsWordChar c || pyIsSpaceChar c || c = '-')).take 50)

/-- Components of a capture timestamp as produced by
`datetime.now().strftime("%Y%m%d_%H%M%S")`. -/
structure Timestamp where
  year : Nat
  month : Nat
  day : Nat
  hour : Nat
  minute : Nat
  second : Nat
deriving DecidableEq

/-- Zero-pad the decimal representation of `n` to at least `w` characters,
as the `strftime` field formats do. -/
def padZero (w : Nat) (n : Nat) : String :=
  let s := Nat.repr n
  String.mk (List.replicate (w - s.length) '0') ++ s

/-- Embedding of `strftime("%Y%m%d_%H%M%S")`. -/
def formatTimestamp (t : Timestamp) : String :=
  padZero 4 t.year ++ padZero 2 t.month ++ padZero 2 t.day ++ "_" ++
    padZero 2 t.hour ++ padZero 2 t.minute ++ padZero 2 t.second

/-- Embedding of `self.output_dir / f"{safe_title}_{timestamp}"`. -/
def output_subdir (outputDir : String) (title : String) (t : Timestamp) : String :=
  outputDir ++ "/" ++ safe_title title ++ "_" ++ formatTimestamp t

/-- Per-page file path `output_subdir / f"page_{n}.{ext}"`. -/
def pageFile (dir : String) (n : Nat) (ext : String) : String :=
  dir ++ "/page_" ++ Nat.repr n ++ "." ++ ext

/-- One element of `results["pages"]`. -/
structure PageEntry where
  page : Nat
  svg : String
  png : String
  pdf : String
deriving DecidableEq

/-- The dictionary appended to `results["pages"]` for the page at 1-based
position `n` of the sorted URL list. -/
def mkPageEntry (dir : String) (n : Nat) : PageEntry :=
  { page := n, svg := pageFile dir n "svg", png := pageFile dir n "png",
    pdf := pageFile dir n "pdf" }

/-- The result dictionary returned by `capture_score_pages` on success. -/
structure CaptureResult where
  title : String
  composer : String
  total_pages : Nat
  output_dir : String
  pages : List PageEntry
  pdf_file : Option String
deriving DecidableEq

/-- Observable events of the per-page loop: a progress-callback invocation
`progress_callback(current, total)`, or the processing (fetch attempt) of
one URL. -/
inductive Event where
  | progress (current total : Nat)
  | fetch (url : String)
deriving DecidableEq

/-- Score metadata extracted from the DOM (`info["score_info"]`); only its
`totalPages` field is consumed by the capture pipeline. -/
structure ScoreInfo where
  totalPages : Nat
deriving DecidableEq

/-- Environment of one `capture_score_pages` run: the metadata the page
yields, the page's lazy-loading behaviour, the network, the conversion
outcomes (per URL, for the raster and document-fragment conversions), and
which files exist on disk at merge time. -/
structure CaptureEnv where
  title : String
  composer : String
  scoreInfo : Option ScoreInfo
  timestamp : Timestamp
  outputDir : String
  pm : PageModel
  net : String → FetchOutcome
  pngOk : String → Bool
  pdfOk : String → Bool
  onDisk : String → Bool

/-- Per-page loop of `capture_score_pages`, processing the sorted URL list
from 0-based position `i`: invoke the progress callback, download, and on a
truthy body record the page entry and (when the PDF conversion succeeded)
the fragment path.  Returns the pages list, the `pdf_files` list and the
event trace. -/
def capturePagesAux (env : CaptureEnv) (dir : String) (total : Nat) :
    List String → Nat → List PageEntry × List String × List Event
  | [], _ => ([], [], [])
  | url :: rest, i =>
    let svg := download_svg (env.net url)
    let tail := capturePagesAux env dir total rest (i + 1)
    let evs := Event.progress (i + 1) total :: Event.fetch url :: tail.2.2
    if truthyBytes svg then
      let pdfs :=
        if env.pdfOk url then pageFile dir (i + 1) "pdf" :: tail.2.1 else tail.2.1
      (mkPageEntry dir (i + 1) :: tail.1, pdfs, evs)
    else
      (tail.1, tail.2.1, evs)

/-- Embedding of `MuseScoreCapture._merge_pdfs`: walk the fragment list in
order, appending to the merger exactly those paths that exist on disk; the
returned list is the ordered content of the merged document.  The function
is total: a missing path is skipped, never an error. -/
def merge_pdfs (onDisk : String → Bool) : List String → List String
  | [] => []
  | p :: rest =>
    if onDisk p then p :: merge_pdfs onDisk rest
    else merge_pdfs onDisk rest

/-- Full observable outcome of one `capture_score_pages` invocation: the
returned dictionary (error or result), the progress/fetch event trace, the
`pdf_files` list handed to the merge step, and the merged document content
(`none` when the merge step was skipped). -/
structure CaptureRun where
  result : Except String CaptureResult
  trace : List Event
  pdf_files : List String
  merged : Option (List String)

/-- Embedding of `MuseScoreCapture.capture_score_pages`: fail when no score
metadata is available; discover the sorted URL list and fail when it is
empty; run the per-page loop; update `total_pages` to the number of pages
actually captured; merge the fragments only when at least one PDF was
produced, recording the merged-document path then and only then. -/
def capture_score_pages (env : CaptureEnv) : CaptureRun :=
  match env.scoreInfo with
  | none =>
    { result := .error "无法获取乐谱信息，请确保已登录且有权限查看",
      trace := [], pdf_files := [], merged := none }
  | some si =>
    let dir := output_subdir env.outputDir env.title env.timestamp
    let urls := (collect_all_svg_urls env.pm si.totalPages).1
    if urls.isEmpty then
      { result := .error "无法获取乐谱 SVG URL，请确保已登录且有权限查看完整乐谱",
        trace := [], pdf_files := [], merged := none }
    else
      let step := capturePagesAux env dir urls.length urls 0
      let pdfs := step.2.1
      { result := .ok
          { title := env.title, composer := env.composer,
            total_pages := step.1.length, output_dir := dir, pages := step.1,
            pdf_file :=
              if 0 < pdfs.length then
                some (dir ++ "/" ++ safe_title env.title ++ "_complete.pdf")
              else none },
        trace := step.2.2,
        pdf_files := pdfs,
        merged :=
          if 0 < pdfs.length then some (merge_pdfs env.onDisk pdfs) else none }

/-- Status bookkeeping of `run_capture` in `src/app.py`: a result carrying an
`"error"` key marks the task `error`; any other result marks it `completed`. -/
def run_capture_status : Except String CaptureResult → String
  | .error _ => "error"
  | .ok _ => "completed"

/-- Successful payload of a capture outcome, if any. -/
def resultOf : Except String CaptureResult → Option CaptureResult
  | .ok r => some r
  | .error _ => none

/-- Progress-callback invocations contained in an event trace, in order. -/
def progressEvents (tr : List Event) : List (Nat × Nat) :=
  tr.filterMap fun e =>
    match e with
    | .progress c t => some (c, t)
    | .fetch _ => none

section DiscoveryLemmas

/-- Adding URLs one by one with an already-present check preserves freedom
from duplicates. -/
theorem unionInto_nodup (l : List String) :
    ∀ acc : List String, acc.Nodup → (unionInto acc l).Nodup := by
  induction l with
  | nil => intro acc h; simpa [unionInto] using h
  | cons u rest ih =>
    intro acc h
    have hstep : (if u ∈ acc then acc else acc ++ [u]).Nodup := by
      by_cases hm : u ∈ acc
      · simpa [hm] using h
      · simp [hm, List.nodup_append, h]
    simpa [unionInto, List.foldl_cons] using ih _ hstep

/-- The scroll loop only grows the accumulated collection by unions, so it
preserves freedom from duplicates. -/
theorem collectLoopAux_nodup (pm : PageModel) (expected : Nat) :
    ∀ r iter acc, acc.Nodup → (collectLoopAux pm expected iter r acc).1.Nodup := by
  intro r
  induction r with
  | zero => intro iter acc h; simpa [collectLoopAux] using h
  | succ r ih =>
    intro iter acc h
    have h2 : (unionInto acc (pm.scrollUrls (iter + 1))).Nodup :=
      unionInto_nodup _ _ h
    by_cases hb : expected ≤ (unionInto acc (pm.scrollUrls (iter + 1))).length
    · simpa [collectLoopAux, hb] using h2
    · simpa [collectLoopAux, hb] using ih (iter + 1) _ h2

/-- The scroll loop performs at most as many iterations as its fuel. -/
theorem collectLoopAux_iters_le (pm : PageModel) (expected : Nat) :
    ∀ r iter acc, (collectLoopAux pm expected iter r acc).2 ≤ r := by
  intro r
  induction r with
  | zero => intro iter acc; simp [collectLoopAux]
  | succ r ih =>
    intro iter acc
    by_cases hb : expected ≤ (unionInto acc (pm.scrollUrls (iter + 1))).length
    · simp [collectLoopAux, hb]
    · simpa [collectLoopAux, hb] using Nat.succ_le_succ (ih (iter + 1) _)

/-- Started from the accumulated state after `iter` scroll steps, the loop's
final accumulated state is the one after `iter + n` scroll steps, where `n`
is the number of iterations it performed. -/
theorem collectLoopAux_acc (pm : PageModel) (expected : Nat) :
    ∀ r iter,
      (collectLoopAux pm expected iter r (accAfter pm iter)).1 =
        accAfter pm (iter + (collectLoopAux pm expected iter r (accAfter pm iter)).2) := by
  intro r
  induction r with
  | zero => intro iter; simp [collectLoopAux]
  | succ r ih =>
    intro iter
    have hacc : unionInto (accAfter pm iter) (pm.scrollUrls (iter + 1)) =
        accAfter pm (iter + 1) := rfl
    by_cases hb : expected ≤ (accAfter pm (iter + 1)).length
    · simp [collectLoopAux, hacc, hb]
    · have := ih (iter + 1)
      simp only [collectLoopAux, hacc, hb, if_neg, ite_false]
      simpa [Nat.add_assoc, Nat.add_comm, Nat.add_left_comm] using this

/-- Early-stop minimality: at every scroll step strictly before the last one
performed, the accumulated collection was still below the expected count. -/
theorem collectLoopAux_min (pm : PageModel) (expected : Nat) :
    ∀ r iter k, iter < k →
      k < iter + (collectLoopAux pm expected iter r (accAfter pm iter)).2 →
      (accAfter pm k).length < expected := by
  intro r
  induction r with
  | zero => intro iter k h1 h2; simp [collectLoopAux] at h2; omega
  | succ r ih =>
    intro iter k h1 h2
    have hacc : unionInto (accAfter pm iter) (pm.scrollUrls (iter + 1)) =
        accAfter pm (iter + 1) := rfl
    by_cases hb : expected ≤ (accAfter pm (iter + 1)).length
    · simp [collectLoopAux, hacc, hb] at h2
      omega
    · simp only [collectLoopAux, hacc, hb, ite_false] at h2
      rcases Nat.lt_or_ge k (iter + 1) with hk | hk
      · have : k = iter + 1 ∨ k ≤ iter := by omega
        rcases this with h | h
        · subst h; exact Nat.lt_of_not_le hb
        · omega
      · rcases Nat.eq_or_lt_of_le hk with h | h
        · subst h; exact Nat.lt_of_not_le hb
        · exact ih (iter + 1) k h (by omega)

/-- If the loop stopped before exhausting its fuel, it stopped because the
accumulated collection had reached the expected count. -/
theorem collectLoopAux_early (pm : PageModel) (expected : Nat) :
    ∀ r iter,
      (collectLoopAux pm expected iter r (accAfter pm iter)).2 < r →
      expected ≤
        (accAfter pm (iter + (collectLoopAux pm expected iter r (accAfter pm iter)).2)).length := by
  intro r
  induction r with
  | zero => intro iter h; simp [collectLoopAux] at h
  | succ r ih =>
    intro iter h
    have hacc : unionInto (accAfter pm iter) (pm.scrollUrls (iter + 1)) =
        accAfter pm (iter + 1) := rfl
    by_cases hb : expected ≤ (accAfter pm (iter + 1)).length
    · simp [collectLoopAux, hacc, hb]
    · simp only [collectLoopAux, hacc, hb, ite_false] at h ⊢
      have := ih (iter + 1) (by omega)
      simpa [Nat.add_assoc, Nat.add_comm, Nat.add_left_comm] using this

end DiscoveryLemmas

/-- Output directory computed by one capture run. -/
def captureDir (env : CaptureEnv) : String :=
  output_subdir env.outputDir env.title env.timestamp

/-- Sorted URL list discovered by one capture run. -/
def captureUrls (env : CaptureEnv) (si : ScoreInfo) : List String :=
  (collect_all_svg_urls env.pm si.totalPages).1

/-- Per-page loop outcome of one capture run. -/
def captureStep (env : CaptureEnv) (si : ScoreInfo) :
    List PageEntry × List String × List Event :=
  capturePagesAux env (captureDir env) (captureUrls env si).length (captureUrls env si) 0

section PipelineLemmas

variable (env : CaptureEnv) (dir : String) (total : Nat)

/-- The number of recorded pages equals the number of URLs whose download
yielded a truthy body. -/
theorem capturePagesAux_length :
    ∀ (urls : List String) (i : Nat),
      (capturePagesAux env dir total urls i).1.length =
        (urls.filter fun u => truthyBytes (download_svg (env.net u))).length := by
  intro urls
  induction urls with
  | nil => intro i; simp [capturePagesAux]
  | cons u rest ih =>
    intro i
    by_cases hu : truthyBytes (download_svg (env.net u))
    · simp [capturePagesAux, hu, ih]
    · simp [capturePagesAux, hu, ih]

/-- Membership in the recorded pages list: exactly the entries
`page_(i+j+1)` for positions `j` whose download yielded a truthy body. -/
theorem capturePagesAux_mem_pages :
    ∀ (urls : List String) (i : Nat) (e : PageEntry),
      e ∈ (capturePagesAux env dir total urls i).1 ↔
        ∃ j u, urls.get? j = some u ∧ truthyBytes (download_svg (env.net u)) ∧
          e = mkPageEntry dir (i + j + 1) := by
  intro urls
  induction urls with
  | nil => intro i e; simp [capturePagesAux]
  | cons u rest ih =>
    intro i e
    have step : (capturePagesAux env dir total (u :: rest) i).1 =
        if truthyBytes (download_svg (env.net u)) then
          mkPageEntry dir (i + 1) :: (capturePagesAux env dir total rest (i + 1)).1
        else (capturePagesAux env dir total rest (i + 1)).1 := by
      by_cases hu : truthyBytes (download_svg (env.net u)) <;> simp [capturePagesAux, hu]
    rw [step]
    by_cases hu : truthyBytes (download_svg (env.net u))
    · rw [if_pos hu]
      simp only [List.mem_cons]
      rw [ih (i + 1) e]
      constructor
      · rintro (he | ⟨j, v, hj, hv, hev⟩)
        · exact ⟨0, u, by simp, hu, by simpa using he⟩
        · exact ⟨j + 1, v, by simpa using hj, hv, by
            simpa [Nat.add_assoc, Nat.add_comm, Nat.add_left_comm] using hev⟩
      · rintro ⟨j, v, hj, hv, hev⟩
        cases j with
        | zero =>
          left
          simp only [List.get?] at hj
          cases hj
          simpa using hev
        | succ j =>
          right
          exact ⟨j, v, by simpa using hj, hv, by
            simpa [Nat.add_assoc, Nat.add_comm, Nat.add_left_comm] using hev⟩
    · rw [if_neg hu]
      rw [ih (i + 1) e]
      constructor
      · rintro ⟨j, v, hj, hv, hev⟩
        exact ⟨j + 1, v, by simpa using hj, hv, by
          simpa [Nat.add_assoc, Nat.add_comm, Nat.add_left_comm] using hev⟩
      · rintro ⟨j, v, hj, hv, hev⟩
        cases j with
        | zero =>
          simp only [List.get?] at hj
          cases hj
          exact absurd hv hu
        | succ j =>
          exact ⟨j, v, by simpa using hj, hv, by
            simpa [Nat.add_assoc, Nat.add_comm, Nat.add_left_comm] using hev⟩

/-- Membership in the `pdf_files` list: exactly the fragment paths
`page_(i+j+1).pdf` for positions `j` whose download yielded a truthy body
and whose PDF conversion succeeded. -/
theorem capturePagesAux_mem_pdfs :
    ∀ (urls : List String) (i : Nat) (s : String),
      s ∈ (capturePagesAux env dir total urls i).2.1 ↔
        ∃ j u, urls.get? j = some u ∧ truthyBytes (download_svg (env.net u)) ∧
          env.pdfOk u = true ∧ s = pageFile dir (i + j + 1) "pdf" := by
  intro urls
  induction urls with
  | nil => intro i s; simp [capturePagesAux]
  | cons u rest ih =>
    intro i s
    have step :
        (capturePagesAux env dir total (u :: rest) i).2.1 =
          if truthyBytes (download_svg (env.net u)) then
            (if env.pdfOk u then
                pageFile dir (i + 1) "pdf" :: (capturePagesAux env dir total rest (i + 1)).2.1
              else (capturePagesAux env dir total rest (i + 1)).2.1)
          else (capturePagesAux env dir total rest (i + 1)).2.1 := by
      by_cases hu : truthyBytes (download_svg (env.net u)) <;>
        by_cases hp : env.pdfOk u <;> simp [capturePagesAux, hu, hp]
    rw [step]
    have tail : s ∈ (capturePagesAux env dir total rest (i + 1)).2.1 ↔
        ∃ j v, rest.get? j = some v ∧ truthyBytes (download_svg (env.net v)) ∧
          env.pdfOk v = true ∧ s = pageFile dir (i + j + 2) "pdf" := by
      rw [ih (i + 1)]
      constructor
      · rintro ⟨j, v, hj, hv, hp, hs⟩
        exact ⟨j, v, hj, hv, hp, by
          simpa [Nat.add_assoc, Nat.add_comm, Nat.add_left_comm] using hs⟩
      · rintro ⟨j, v, hj, hv, hp, hs⟩
        exact ⟨j, v, hj, hv, hp, by
          simpa [Nat.add_assoc, Nat.add_comm, Nat.add_left_comm] using hs⟩
    have shift :
        (∃ j v, rest.get? j = some v ∧ truthyBytes (download_svg (env.net v)) ∧
            env.pdfOk v = true ∧ s = pageFile dir (i + j + 2) "pdf") ↔
          ∃ j v, (u :: rest).get? j = some v ∧ 0 < j ∧
            truthyBytes (download_svg (env.net v)) ∧
            env.pdfOk v = true ∧ s = pageFile dir (i + j + 1) "pdf" := by
      constructor
      · rintro ⟨j, v, hj, hv, hp, hs⟩
        exact ⟨j + 1, v, by simpa using hj, Nat.succ_pos j, hv, hp, by
          simpa [Nat.add_assoc, Nat.add_comm, Nat.add_left_comm] using hs⟩
      · rintro ⟨j, v, hj, hjpos, hv, hp, hs⟩
        cases j with
        | zero => omega
        | succ j =>
          exact ⟨j, v, by simpa using hj, hv, hp, by
            simpa [Nat.add_assoc, Nat.add_comm, Nat.add_left_comm] using hs⟩
    by_cases hu : truthyBytes (download_svg (env.net u))
    · by_cases hp : env.pdfOk u
      · rw [if_pos hu, if_pos hp]
        simp only [List.mem_cons]
        rw [tail, shift]
        constructor
        · rintro (hs | ⟨j, v, hj, _, hv, hpv, hs⟩)
          · exact ⟨0, u, by simp, hu, hp, by simpa using hs⟩
          · exact ⟨j, v, hj, hv, hpv, hs⟩
        · rintro ⟨j, v, hj, hv, hpv, hs⟩
          cases j with
          | zero =>
            left
            simp only [List.get?] at hj
            cases hj
            simpa using hs
          | succ j =>
            right
            exact ⟨j + 1, v, hj, Nat.succ_pos j, hv, hpv, hs⟩
      · rw [if_pos hu, if_neg hp]
        rw [tail, shift]
        constructor
        · rintro ⟨j, v, hj, _, hv, hpv, hs⟩
          exact ⟨j, v, hj, hv, hpv, hs⟩
        · rintro ⟨j, v, hj, hv, hpv, hs⟩
          cases j with
          | zero =>
            simp only [List.get?] at hj
            cases hj
            exact absurd hpv (by simpa using hp)
          | succ j =>
            exact ⟨j + 1, v, hj, Nat.succ_pos j, hv, hpv, hs⟩
    · rw [if_neg hu]
      rw [tail, shift]
      constructor
      · rintro ⟨j, v, hj, _, hv, hpv, hs⟩
        exact ⟨j, v, hj, hv, hpv, hs⟩
      · rintro ⟨j, v, hj, hv, hpv, hs⟩
        cases j with
        | zero =>
          simp only [List.get?] at hj
          cases hj
          exact absurd hv hu
        | succ j =>
          exact ⟨j + 1, v, hj, Nat.succ_pos j, hv, hpv, hs⟩

/-- The head shape of the per-page loop's event trace: a progress invocation
followed by the fetch of the head URL, then the tail trace — regardless of
the download's outcome. -/
theorem capturePagesAux_trace_cons (u : String) (rest : List String) (i : Nat) :
    (capturePagesAux env dir total (u :: rest) i).2.2 =
      Event.progress (i + 1) total :: Event.fetch u ::
        (capturePagesAux env dir total rest (i + 1)).2.2 := by
  by_cases hu : truthyBytes (download_svg (env.net u)) <;> simp [capturePagesAux, hu]

/-- The progress invocations of the per-page loop are exactly
`(i+1, total), (i+2, total), …`, one per URL, in order. -/
theorem capturePagesAux_progress :
    ∀ (urls : List String) (i : Nat),
      progressEvents (capturePagesAux env dir total urls i).2.2 =
        (List.range' (i + 1) urls.length).map (fun c => (c, total)) := by
  intro urls
  induction urls with
  | nil => intro i; simp [capturePagesAux, progressEvents]
  | cons u rest ih =>
    intro i
    rw [capturePagesAux_trace_cons]
    simp only [progressEvents, List.filterMap_cons] at ih ⊢
    rw [List.length_cons, List.range'_succ, List.map_cons]
    simpa [Nat.add_assoc, Nat.add_comm, Nat.add_left_comm] using ih (i + 1)

/-- Each URL's progress invocation happens immediately before (not after)
that URL's fetch attempt, and is preceded by exactly one progress invocation
per earlier URL. -/
theorem capturePagesAux_progress_before_fetch :
    ∀ (urls : List String) (i j : Nat) (u : String), urls.get? j = some u →
      ∃ pre post,
        (capturePagesAux env dir total urls i).2.2 =
          pre ++ Event.progress (i + j + 1) total :: Event.fetch u :: post ∧
        (progressEvents pre).length = j := by
  intro urls
  induction urls with
  | nil => intro i j u h; simp at h
  | cons u0 rest ih =>
    intro i j u h
    cases j with
    | zero =>
      simp only [List.get?] at h
      cases h
      exact ⟨[], (capturePagesAux env dir total rest (i + 1)).2.2, by
        rw [capturePagesAux_trace_cons]; simp, by simp [progressEvents]⟩
    | succ j =>
      rcases ih (i + 1) j u (by simpa using h) with ⟨pre, post, htr, hlen⟩
      refine ⟨Event.progress (i + 1) total :: Event.fetch u0 :: pre, post, ?_, ?_⟩
      · rw [capturePagesAux_trace_cons, htr]
        simp [Nat.add_assoc, Nat.add_comm, Nat.add_left_comm]
      · simp [progressEvents, List.filterMap_cons] at hlen ⊢
        simpa [progressEvents] using hlen

/-- Unfolding of `capture_score_pages` on the success path: when score
metadata is present and discovery produced a non-empty URL list, the run is
determined by the per-page loop outcome. -/
theorem capture_score_pages_spec (si : ScoreInfo)
    (h1 : env.scoreInfo = some si) (h2 : captureUrls env si ≠ []) :
    capture_score_pages env =
      { result := Except.ok
          { title := env.title, composer := env.composer,
            total_pages := (captureStep env si).1.length,
            output_dir := captureDir env,
            pages := (captureStep env si).1,
            pdf_file :=
              if 0 < (captureStep env si).2.1.length then
                some (captureDir env ++ "/" ++ safe_title env.title ++ "_complete.pdf")
              else none },
        trace := (captureStep env si).2.2,
        pdf_files := (captureStep env si).2.1,
        merged :=
          if 0 < (captureStep env si).2.1.length then
            some (merge_pdfs env.onDisk (captureStep env si).2.1)
          else none } := by
  have hne : (captureUrls env si).isEmpty = false := by
    simpa [List.isEmpty_iff] using h2
  unfold capture_score_pages
  rw [h1]
  simp only [captureUrls] at hne
  simp [hne, captureStep, captureUrls, captureDir]

end PipelineLemmas

section Claims

/-- C1 (counterexample): two distinct URLs from which no page index is
parseable both take the sentinel index 0, so the sequence returned by
discovery is not strictly ascending by parsed page index, even though it is
duplicate-free.  Such URLs arise from the object/embed extraction branch,
which only requires the URL to contain `score`. -/
theorem c1_counterexample :
    (collect_all_svg_urls
        ⟨["https://ex.com/scoreA.svg", "https://ex.com/scoreB.svg"],
          fun _ => [], false⟩ 2).1 =
      ["https://ex.com/scoreA.svg", "https://ex.com/scoreB.svg"] ∧
    extract_page_num "https://ex.com/scoreA.svg" = 0 ∧
    extract_page_num "https://ex.com/scoreB.svg" = 0 ∧
    ¬ List.Pairwise (fun a b => extract_page_num a < extract_page_num b)
        (collect_all_svg_urls
          ⟨["https://ex.com/scoreA.svg", "https://ex.com/scoreB.svg"],
            fun _ => [], false⟩ 2).1 := by
  refine ⟨by decide, by decide, by decide, ?_⟩
  intro h
  rw [show (collect_all_svg_urls
      ⟨["https://ex.com/scoreA.svg", "https://ex.com/scoreB.svg"],
        fun _ => [], false⟩ 2).1 =
      ["https://ex.com/scoreA.svg", "https://ex.com/scoreB.svg"] from by decide] at h
  cases h with
  | cons hab _ =>
    exact absurd (hab "https://ex.com/scoreB.svg" (by simp)) (by decide)

/-- C1 (amended): for every discovery run, the returned sequence contains no
duplicate URLs and is sorted non-strictly ascending by parsed page index;
strictness can fail when two distinct URLs share a parsed index (for
instance when both take the sentinel). -/
theorem c1_dedup_sorted (pm : PageModel) (expected : Nat) :
    (collect_all_svg_urls pm expected).1.Nodup ∧
      List.Sorted urlKeyLE (collect_all_svg_urls pm expected).1 := by
  have hbase : (unionInto [] pm.initialUrls).Nodup :=
    unionInto_nodup _ _ List.nodup_nil
  have hstep :
      (if pm.hasScroller then
          collectLoopAux pm expected 0 (expected + 5) (unionInto [] pm.initialUrls)
        else (unionInto [] pm.initialUrls, 0)).1.Nodup := by
    by_cases hs : pm.hasScroller
    · simpa [hs] using
        collectLoopAux_nodup pm expected (expected + 5) 0 _ hbase
    · simpa [hs] using hbase
  constructor
  · have hperm := List.perm_insertionSort urlKeyLE
      (if pm.hasScroller then
          collectLoopAux pm expected 0 (expected + 5) (unionInto [] pm.initialUrls)
        else (unionInto [] pm.initialUrls, 0)).1
    exact hperm.nodup_iff.2 hstep
  · exact List.sorted_insertionSort urlKeyLE _

/-- C1 (witness): the amended theorem applied to a concrete discovery run. -/
theorem c1_dedup_sorted_witness :
    (collect_all_svg_urls
        ⟨["u/score_2.svg", "u/score_1.svg"], fun _ => [], true⟩ 2).1.Nodup ∧
      List.Sorted urlKeyLE
        (collect_all_svg_urls
          ⟨["u/score_2.svg", "u/score_1.svg"], fun _ => [], true⟩ 2).1 :=
  c1_dedup_sorted ⟨["u/score_2.svg", "u/score_1.svg"], fun _ => [], true⟩ 2

/-- C8: for every page behaviour and every expected page count, the scroll
loop performs at most `expected + 5` iterations (termination is inherent in
the bounded recursion); every iteration strictly before the last one saw an
accumulated set still smaller than `expected` (the loop stops as soon as the
count is reached); and when the loop stopped before exhausting its budget it
did so because the accumulated set had reached `expected`. -/
theorem c8_bounded_scroll (pm : PageModel) (expected : Nat) :
    (collect_all_svg_urls pm expected).2 ≤ expected + 5 ∧
    (∀ k, 1 ≤ k → k < (collect_all_svg_urls pm expected).2 →
        (accAfter pm k).length < expected) ∧
    (pm.hasScroller → (collect_all_svg_urls pm expected).2 < expected + 5 →
        expected ≤ (accAfter pm (collect_all_svg_urls pm expected).2).length) := by
  by_cases hs : pm.hasScroller
  · have hiters : (collect_all_svg_urls pm expected).2 =
        (collectLoopAux pm expected 0 (expected + 5) (accAfter pm 0)).2 := by
      simp [collect_all_svg_urls, hs, accAfter]
    refine ⟨?_, ?_, ?_⟩
    · rw [hiters]; exact collectLoopAux_iters_le pm expected _ 0 _
    · intro k hk1 hk2
      rw [hiters] at hk2
      exact collectLoopAux_min pm expected (expected + 5) 0 k (by omega)
        (by simpa using hk2)
    · intro _ hlt
      rw [hiters] at hlt ⊢
      simpa using collectLoopAux_early pm expected (expected + 5) 0 hlt
  · refine ⟨?_, ?_, ?_⟩
    · simp [collect_all_svg_urls, hs]
    · intro k _ hk2
      simp [collect_all_svg_urls, hs] at hk2
    · intro h; exact absurd h hs

/-- C8 (witness): the bound theorem applied to a concrete page behaviour
that never exposes the expected number of locators. -/
theorem c8_bounded_scroll_witness :
    (collect_all_svg_urls ⟨["u/score_1.svg"], fun _ => [], true⟩ 7).2 ≤ 7 + 5 ∧
    (∀ k, 1 ≤ k →
        k < (collect_all_svg_urls ⟨["u/score_1.svg"], fun _ => [], true⟩ 7).2 →
        (accAfter ⟨["u/score_1.svg"], fun _ => [], true⟩ k).length < 7) ∧
    ((⟨["u/score_1.svg"], fun _ => [], true⟩ : PageModel).hasScroller →
      (collect_all_svg_urls ⟨["u/score_1.svg"], fun _ => [], true⟩ 7).2 < 7 + 5 →
      7 ≤ (accAfter ⟨["u/score_1.svg"], fun _ => [], true⟩
            (collect_all_svg_urls ⟨["u/score_1.svg"], fun _ => [], true⟩ 7).2).length) :=
  c8_bounded_scroll ⟨["u/score_1.svg"], fun _ => [], true⟩ 7

/-- Capture environment of the end-to-end scenario: three discoverable
locators, the second resource fetch failing with a non-success status, all
conversions succeeding, all produced files present on disk. -/
def envC2 : CaptureEnv :=
  { title := "Sonata", composer := "Author", scoreInfo := some ⟨3⟩,
    timestamp := ⟨2024, 5, 6, 7, 8, 9⟩, outputDir := "./downloads",
    pm := ⟨["u/score_1.svg", "u/score_2.svg", "u/score_3.svg"], fun _ => [], false⟩,
    net := fun u =>
      if u = "u/score_2.svg" then FetchOutcome.resp false []
      else FetchOutcome.resp true [7],
    pngOk := fun _ => true, pdfOk := fun _ => true, onDisk := fun _ => true }

/-- Expected capture result of the `envC2` scenario. -/
def resC2 : CaptureResult :=
  { title := "Sonata", composer := "Author", total_pages := 2,
    output_dir := "./downloads/Sonata_20240506_070809",
    pages := [mkPageEntry "./downloads/Sonata_20240506_070809" 1,
              mkPageEntry "./downloads/Sonata_20240506_070809" 3],
    pdf_file := some "./downloads/Sonata_20240506_070809/Sonata_complete.pdf" }

/-- C2: the result's `total_pages` counts exactly the locators whose fetch
produced content, which can be fewer than the metadata-advertised count; in
the concrete three-locator scenario with the second fetch failing the result
has `total_pages = 2`, its pages are 1 and 3, and the merged document
receives only the fragments of pages 1 and 3 — no `page_2.pdf` fragment is
handed to the merge. -/
theorem c2_total_pages (env : CaptureEnv) (si : ScoreInfo) (r : CaptureResult)
    (h1 : env.scoreInfo = some si) (h2 : captureUrls env si ≠ [])
    (hr : (capture_score_pages env).result = Except.ok r) :
    r.total_pages =
      ((captureUrls env si).filter fun u =>
        truthyBytes (download_svg (env.net u))).length ∧
    resultOf (capture_score_pages envC2).result = some resC2 ∧
    (capture_score_pages envC2).merged =
      some ["./downloads/Sonata_20240506_070809/page_1.pdf",
            "./downloads/Sonata_20240506_070809/page_3.pdf"] ∧
    "./downloads/Sonata_20240506_070809/page_2.pdf" ∉
      (capture_score_pages envC2).pdf_files := by
  refine ⟨?_, by decide, by decide, by decide⟩
  rw [capture_score_pages_spec env si h1 h2] at hr
  cases hr
  exact capturePagesAux_length env (captureDir env) (captureUrls env si).length
    (captureUrls env si) 0

/-- C2 (witness): the theorem applied to the concrete scenario itself. -/
theorem c2_total_pages_witness :
    resC2.total_pages =
      ((captureUrls envC2 ⟨3⟩).filter fun u =>
        truthyBytes (download_svg (envC2.net u))).length ∧
    resultOf (capture_score_pages envC2).result = some resC2 ∧
    (capture_score_pages envC2).merged =
      some ["./downloads/Sonata_20240506_070809/page_1.pdf",
            "./downloads/Sonata_20240506_070809/page_3.pdf"] ∧
    "./downloads/Sonata_20240506_070809/page_2.pdf" ∉
      (capture_score_pages envC2).pdf_files :=
  c2_total_pages envC2 ⟨3⟩ resC2 rfl (by decide) (by rfl)

/-- Capture environment with a single locator whose fetch raises, used to
exhibit the order between the progress invocation and the fetch attempt. -/
def envC3 : CaptureEnv :=
  { title := "T", composer := "C", scoreInfo := some ⟨1⟩,
    timestamp := ⟨2024, 1, 1, 0, 0, 0⟩, outputDir := "d",
    pm := ⟨["u/score_1.svg"], fun _ => [], false⟩,
    net := fun _ => FetchOutcome.exn,
    pngOk := fun _ => true, pdfOk := fun _ => true, onDisk := fun _ => true }

/-- C3 (counterexample): the progress callback fires before, not after, the
processing of each locator: with one locator the observable trace is the
progress invocation followed by the fetch attempt, not the other way around
as the claim's "after processing it" requires. -/
theorem c3_counterexample :
    (capture_score_pages envC3).trace =
      [Event.progress 1 1, Event.fetch "u/score_1.svg"] ∧
    (capture_score_pages envC3).trace ≠
      [Event.fetch "u/score_1.svg", Event.progress 1 1] := by
  constructor
  · decide
  · decide

/-- C3 (amended): with a progress callback and `n ≥ 1` discovered locators,
the callback is invoked exactly once per locator — immediately before
processing it, not after — regardless of per-page success or failure; the
invocations are `(1,n), …, (n,n)` in order, so `current` is monotonically
non-decreasing and the final invocation has `current = total = n`. -/
theorem c3_progress_monotonic (env : CaptureEnv) (si : ScoreInfo)
    (h1 : env.scoreInfo = some si) (h2 : captureUrls env si ≠ []) :
    progressEvents (capture_score_pages env).trace =
      (List.range' 1 (captureUrls env si).length).map
        (fun c => (c, (captureUrls env si).length)) ∧
    (∀ j u, (captureUrls env si).get? j = some u →
        ∃ pre post,
          (capture_score_pages env).trace =
            pre ++ Event.progress (j + 1) (captureUrls env si).length ::
              Event.fetch u :: post ∧
          (progressEvents pre).length = j) ∧
    ((progressEvents (capture_score_pages env).trace).map Prod.fst).Pairwise (· ≤ ·) ∧
    (1 ≤ (captureUrls env si).length →
        (progressEvents (capture_score_pages env).trace).getLast? =
          some ((captureUrls env si).length, (captureUrls env si).length)) := by
  rw [capture_score_pages_spec env si h1 h2]
  have hprog := capturePagesAux_progress env (captureDir env)
    (captureUrls env si).length (captureUrls env si) 0
  refine ⟨by simpa using hprog, ?_, ?_, ?_⟩
  · intro j u hj
    rcases capturePagesAux_progress_before_fetch env (captureDir env)
      (captureUrls env si).length (captureUrls env si) 0 j u hj with ⟨pre, post, htr, hlen⟩
    exact ⟨pre, post, by simpa using htr, hlen⟩
  · rw [captureStep, hprog]
    simpa [List.map_map, Function.comp_def] using
      (List.pairwise_lt_range' 1 (captureUrls env si).length).imp
        (fun h => Nat.le_of_lt h)
  · intro hn
    rw [captureStep, hprog]
    rw [List.getLast?_map]
    rw [List.getLast?_range']
    have hne : (captureUrls env si).length ≠ 0 := by omega
    simp [hne]

/-- C3 (witness): the amended theorem applied to the single-locator run. -/
theorem c3_progress_monotonic_witness :
    progressEvents (capture_score_pages envC3).trace = [(1, 1)] ∧
    (progressEvents (capture_score_pages envC3).trace).getLast? = some (1, 1) := by
  have h := c3_progress_monotonic envC3 ⟨1⟩ rfl (by decide)
  constructor
  · rw [h.1]; decide
  · rw [h.2.2.2 (by decide)]; decide

/-- Capture environment with two locators, the first fetch raising and the
second succeeding. -/
def envC9 : CaptureEnv :=
  { title := "W", composer := "X", scoreInfo := some ⟨2⟩,
    timestamp := ⟨2024, 2, 2, 2, 2, 2⟩, outputDir := "o",
    pm := ⟨["w/score_1.svg", "w/score_2.svg"], fun _ => [], false⟩,
    net := fun u => if u = "w/score_1.svg" then FetchOutcome.exn
      else FetchOutcome.resp true [1],
    pngOk := fun _ => true, pdfOk := fun _ => true, onDisk := fun _ => true }

/-- Expected capture result of the `envC9` run: only page 2 is captured. -/
def resC9 : CaptureResult :=
  { title := "W", composer := "X", total_pages := 1,
    output_dir := "o/W_20240202_020202",
    pages := [mkPageEntry "o/W_20240202_020202" 2],
    pdf_file := some "o/W_20240202_020202/W_complete.pdf" }

/-- C9: the resource download is a total function of the request outcome —
it returns the body exactly when the response is ok and `None` on any
non-success status or exception (so no exception propagates); and a `None`
return only skips that page: the failed position contributes no page entry
while every position with a truthy body still does, so the run continues. -/
theorem c9_download_total (o : FetchOutcome) (b : Bytes) (env : CaptureEnv)
    (si : ScoreInfo) (h1 : env.scoreInfo = some si)
    (h2 : captureUrls env si ≠ []) :
    (download_svg o = some b ↔ o = FetchOutcome.resp true b) ∧
    (∀ body, download_svg (FetchOutcome.resp false body) = none) ∧
    download_svg FetchOutcome.exn = none ∧
    (∀ j u r, (captureUrls env si).get? j = some u →
        download_svg (env.net u) = none →
        (capture_score_pages env).result = Except.ok r →
        ∀ e ∈ r.pages, e.page ≠ j + 1) ∧
    (∀ k v r, (captureUrls env si).get? k = some v →
        truthyBytes (download_svg (env.net v)) →
        (capture_score_pages env).result = Except.ok r →
        mkPageEntry (captureDir env) (k + 1) ∈ r.pages) := by
  refine ⟨?_, by intro body; simp [download_svg], by simp [download_svg], ?_, ?_⟩
  · cases o with
    | resp ok body => cases ok <;> simp [download_svg]
    | exn => simp [download_svg]
  · intro j u r hj hdl hr e he hpage
    rw [capture_score_pages_spec env si h1 h2] at hr
    cases hr
    rcases (capturePagesAux_mem_pages env (captureDir env)
        (captureUrls env si).length (captureUrls env si) 0 e).1 he with
      ⟨j2, u2, hj2, hv2, he2⟩
    have hpage2 : e.page = j2 + 1 := by
      rw [he2]; simp [mkPageEntry]
    have hjj : j2 = j := by omega
    subst hjj
    rw [hj] at hj2
    cases hj2
    rw [hdl] at hv2
    simp [truthyBytes] at hv2
  · intro k v r hk hv hr
    rw [capture_score_pages_spec env si h1 h2] at hr
    cases hr
    refine (capturePagesAux_mem_pages env (captureDir env)
        (captureUrls env si).length (captureUrls env si) 0 _).2
      ⟨k, v, hk, hv, ?_⟩
    simp

/-- C9 (witness): the theorem applied to a concrete run in which the first
fetch raises and the second succeeds. -/
theorem c9_download_total_witness :
    download_svg FetchOutcome.exn = none ∧
    (∀ e ∈ resC9.pages, e.page ≠ 0 + 1) ∧
    mkPageEntry (captureDir envC9) (1 + 1) ∈ resC9.pages := by
  have h := c9_download_total FetchOutcome.exn [] envC9 ⟨2⟩ rfl (by decide)
  exact ⟨h.2.2.1,
    h.2.2.2.1 0 "w/score_1.svg" resC9 (by decide) (by decide) (by rfl),
    h.2.2.2.2 1 "w/score_2.svg" resC9 (by decide) (by decide) (by rfl)⟩

/-- Capture environment with a single locator whose fetch succeeds but both
conversions fail. -/
def envC10 : CaptureEnv :=
  { title := "V", composer := "X", scoreInfo := some ⟨1⟩,
    timestamp := ⟨2024, 3, 3, 3, 3, 3⟩, outputDir := "o",
    pm := ⟨["v/score_1.svg"], fun _ => [], false⟩,
    net := fun _ => FetchOutcome.resp true [9],
    pngOk := fun _ => false, pdfOk := fun _ => false, onDisk := fun _ => true }

/-- Expected capture result of the `envC10` run: the page entry is recorded
with its png and pdf paths even though both conversions failed. -/
def resC10 : CaptureResult :=
  { title := "V", composer := "X", total_pages := 1,
    output_dir := "o/V_20240303_030303",
    pages := [mkPageEntry "o/V_20240303_030303" 1],
    pdf_file := none }

/-- C10: every position whose download yields a truthy body contributes a
page entry carrying its png and pdf paths, independently of whether either
conversion succeeded (so an entry exists even when no file was written at a
failed path); and the merge input list contains exactly the fragment paths
of positions whose download succeeded AND whose PDF conversion succeeded. -/
theorem c10_conversion_failure_recorded (env : CaptureEnv) (si : ScoreInfo)
    (r : CaptureResult) (h1 : env.scoreInfo = some si)
    (h2 : captureUrls env si ≠ [])
    (hr : (capture_score_pages env).result = Except.ok r) :
    (∀ j u, (captureUrls env si).get? j = some u →
        truthyBytes (download_svg (env.net u)) →
        ∃ e, e ∈ r.pages ∧ e.page = j + 1 ∧
          e.png = pageFile (captureDir env) (j + 1) "png" ∧
          e.pdf = pageFile (captureDir env) (j + 1) "pdf") ∧
    (∀ s, s ∈ (capture_score_pages env).pdf_files ↔
        ∃ j u, (captureUrls env si).get? j = some u ∧
          truthyBytes (download_svg (env.net u)) ∧ env.pdfOk u = true ∧
          s = pageFile (captureDir env) (j + 1) "pdf") := by
  have hpf : (capture_score_pages env).pdf_files = (captureStep env si).2.1 := by
    rw [capture_score_pages_spec env si h1 h2]
  rw [capture_score_pages_spec env si h1 h2] at hr
  cases hr
  constructor
  · intro j u hj hu
    refine ⟨mkPageEntry (captureDir env) (j + 1), ?_, by simp [mkPageEntry],
      by simp [mkPageEntry], by simp [mkPageEntry]⟩
    refine (capturePagesAux_mem_pages env (captureDir env)
        (captureUrls env si).length (captureUrls env si) 0 _).2 ⟨j, u, hj, hu, ?_⟩
    simp
  · intro s
    rw [hpf, captureStep]
    rw [capturePagesAux_mem_pdfs env (captureDir env)
      (captureUrls env si).length (captureUrls env si) 0 s]
    constructor
    · rintro ⟨j, u, hj, hu, hp, hs⟩
      exact ⟨j, u, hj, hu, hp, by simpa using hs⟩
    · rintro ⟨j, u, hj, hu, hp, hs⟩
      exact ⟨j, u, hj, hu, hp, by simpa using hs⟩

/-- C10 (witness): the theorem applied to a concrete run whose only page
downloads successfully while both conversions fail. -/
theorem c10_conversion_failure_recorded_witness :
    (∃ e, e ∈ resC10.pages ∧ e.page = 0 + 1 ∧
        e.png = pageFile (captureDir envC10) (0 + 1) "png" ∧
        e.pdf = pageFile (captureDir envC10) (0 + 1) "pdf") ∧
    pageFile (captureDir envC10) (0 + 1) "pdf" ∉
      (capture_score_pages envC10).pdf_files := by
  have h := c10_conversion_failure_recorded envC10 ⟨1⟩ resC10 rfl (by decide) (by rfl)
  refine ⟨h.1 0 "v/score_1.svg" (by decide) (by decide), ?_⟩
  intro hs
  rcases (h.2 _).1 hs with ⟨j, u, _, _, hpdf, _⟩
  exact absurd hpdf (by simp [envC10])

/-- Capture environment with two locators whose fetches all fail, so zero
pages are captured and zero fragments are produced. -/
def envC4 : CaptureEnv :=
  { title := "Z", composer := "X", scoreInfo := some ⟨2⟩,
    timestamp := ⟨2024, 4, 4, 4, 4, 4⟩, outputDir := "o",
    pm := ⟨["z/score_1.svg", "z/score_2.svg"], fun _ => [], false⟩,
    net := fun _ => FetchOutcome.resp false [],
    pngOk := fun _ => true, pdfOk := fun _ => true, onDisk := fun _ => true }

/-- C4: the merge walks the fragment list in order appending exactly the
paths that exist on disk (totality of `merge_pdfs` embeds "does not raise");
merging `[A, B, C]` with `B` missing yields a document containing `A` then
`C`; and a run that produced zero fragments skips the merge step entirely
and records no merged-document path. -/
theorem c4_merge_skips_missing :
    (∀ (ex : String → Bool) (files : List String),
        merge_pdfs ex files = files.filter ex) ∧
    merge_pdfs (fun s => s != "B") ["A", "B", "C"] = ["A", "C"] ∧
    (∀ env : CaptureEnv, (capture_score_pages env).pdf_files = [] →
        (capture_score_pages env).merged = none ∧
        ∀ r, (capture_score_pages env).result = Except.ok r →
          r.pdf_file = none) := by
  refine ⟨?_, by decide, ?_⟩
  · intro ex files
    induction files with
    | nil => simp [merge_pdfs]
    | cons p rest ih =>
      by_cases hp : ex p <;> simp [merge_pdfs, hp, ih]
  · intro env hempty
    cases hsi : env.scoreInfo with
    | none =>
      constructor
      · simp [capture_score_pages, hsi]
      · intro r hr
        simp [capture_score_pages, hsi] at hr
    | some si =>
      by_cases hurls : (collect_all_svg_urls env.pm si.totalPages).1 = []
      · have hempty2 : ((collect_all_svg_urls env.pm si.totalPages).1).isEmpty = true := by
          simp [hurls]
        constructor
        · simp [capture_score_pages, hsi, hempty2]
        · intro r hr
          simp [capture_score_pages, hsi, hempty2] at hr
      · rw [capture_score_pages_spec env si hsi hurls] at hempty ⊢
        simp only at hempty
        constructor
        · simp [hempty]
        · intro r hr
          simp only [Except.ok.injEq] at hr
          rw [← hr]
          simp [hempty]

/-- C4 (witness): the theorem applied to a concrete fragment list and a
concrete run producing zero fragments. -/
theorem c4_merge_skips_missing_witness :
    merge_pdfs (fun s => s != "B") ["A", "B", "C"] =
      (["A", "B", "C"].filter fun s => s != "B") ∧
    (capture_score_pages envC4).merged = none := by
  have h := c4_merge_skips_missing
  exact ⟨h.1 (fun s => s != "B") ["A", "B", "C"], (h.2.2 envC4 (by rfl)).1⟩

/-- Capture environment whose metadata reports a page count of 0 while the
page itself exposes one primary locator. -/
def envC5 : CaptureEnv :=
  { title := "P", composer := "X", scoreInfo := some ⟨0⟩,
    timestamp := ⟨2024, 5, 5, 5, 5, 5⟩, outputDir := "o",
    pm := ⟨["p/scoredata/score_1.svg"], fun _ => [], false⟩,
    net := fun _ => FetchOutcome.resp true [1],
    pngOk := fun _ => true, pdfOk := fun _ => true, onDisk := fun _ => true }

/-- Capture environment whose metadata extraction found nothing. -/
def envC5none : CaptureEnv :=
  { title := "Q", composer := "X", scoreInfo := none,
    timestamp := ⟨2024, 5, 5, 5, 5, 6⟩, outputDir := "o",
    pm := ⟨[], fun _ => [], false⟩,
    net := fun _ => FetchOutcome.exn,
    pngOk := fun _ => true, pdfOk := fun _ => true, onDisk := fun _ => true }

/-- C5 (counterexample): with an advertised page count of 0, discovery does
not fail — it returns the URL it found and the run completes, contradicting
the claim that an `expectedPageCount` of 0 fails with a metadata error. -/
theorem c5_counterexample :
    envC5.scoreInfo = some ⟨0⟩ ∧
    (collect_all_svg_urls envC5.pm 0).1 = ["p/scoredata/score_1.svg"] ∧
    run_capture_status (capture_score_pages envC5).result = "completed" := by
  refine ⟨rfl, by decide, by decide⟩

/-- C5 (amended): when metadata is unavailable the run fails with the
metadata error before any discovery or fetch happens (its trace is empty);
an advertised page count of 0 does not itself fail — discovery still runs
with a scroll budget of at most `0 + 5` iterations, never unbounded — and
the run fails only when discovery returns no URLs. -/
theorem c5_metadata_error :
    (∀ env : CaptureEnv, env.scoreInfo = none →
        (capture_score_pages env).result =
          Except.error "无法获取乐谱信息，请确保已登录且有权限查看" ∧
        (capture_score_pages env).trace = []) ∧
    (∀ pm : PageModel, (collect_all_svg_urls pm 0).2 ≤ 5) ∧
    (∀ (env : CaptureEnv) (si : ScoreInfo), env.scoreInfo = some si →
        (collect_all_svg_urls env.pm si.totalPages).1 = [] →
        (capture_score_pages env).result =
          Except.error "无法获取乐谱 SVG URL，请确保已登录且有权限查看完整乐谱") := by
  refine ⟨?_, ?_, ?_⟩
  · intro env h
    constructor <;> simp [capture_score_pages, h]
  · intro pm
    by_cases hs : pm.hasScroller
    · simpa [collect_all_svg_urls, hs] using
        collectLoopAux_iters_le pm 0 (0 + 5) 0 (unionInto [] pm.initialUrls)
    · simp [collect_all_svg_urls, hs]
  · intro env si h hurls
    have hempty : ((collect_all_svg_urls env.pm si.totalPages).1).isEmpty = true := by
      simp [hurls]
    simp [capture_score_pages, h, hempty]

/-- C5 (witness): the amended theorem applied to a run without metadata and
to a zero-expected-count discovery. -/
theorem c5_metadata_error_witness :
    (capture_score_pages envC5none).result =
      Except.error "无法获取乐谱信息，请确保已登录且有权限查看" ∧
    (collect_all_svg_urls envC5.pm 0).2 ≤ 5 := by
  have h := c5_metadata_error
  exact ⟨(h.1 envC5none rfl).1, h.2.1 envC5.pm⟩

/-- Capture environment in which every resource fetch raises, so zero pages
are captured. -/
def envC6 : CaptureEnv :=
  { title := "N", composer := "X", scoreInfo := some ⟨2⟩,
    timestamp := ⟨2024, 6, 6, 6, 6, 6⟩, outputDir := "o",
    pm := ⟨["n/score_1.svg", "n/score_2.svg"], fun _ => [], false⟩,
    net := fun _ => FetchOutcome.exn,
    pngOk := fun _ => true, pdfOk := fun _ => true, onDisk := fun _ => true }

/-- C6: when every resource fetch fails, `capture_score_pages` returns a
result without an error key and with `total_pages = 0`, and the
orchestrator's status bookkeeping marks the task `completed`, not `error` —
the code does not treat `totalPages == 0` as an overall error as the claim
(and the spec's stated intent) requires. -/
theorem c6_zero_pages_completed :
    resultOf (capture_score_pages envC6).result =
      some { title := "N", composer := "X", total_pages := 0,
             output_dir := "o/N_20240606_060606", pages := [],
             pdf_file := none } ∧
    run_capture_status (capture_score_pages envC6).result = "completed" ∧
    run_capture_status (capture_score_pages envC6).result ≠ "error" := by
  refine ⟨by decide, by decide, by decide⟩

/-- Appending to a common left part is injective on the right part. -/
theorem string_append_left_cancel {a b c : String} (h : a ++ b = a ++ c) :
    b = c := by
  apply String.ext
  have hd := congrArg String.data h
  simp only [String.data_append] at hd
  exact List.append_cancel_left hd

/-- Zero-padded two-digit rendering is injective on the range of a seconds
field. -/
theorem padZero_two_inj :
    ∀ a, a < 60 → ∀ b, b < 60 → a ≠ b → padZero 2 a ≠ padZero 2 b := by decide

/-- Two timestamps that differ only in the seconds field (both in range)
render to different strings. -/
theorem formatTimestamp_second_ne (y mo d h mi s1 s2 : Nat) (hs1 : s1 < 60)
    (hs2 : s2 < 60) (hne : s1 ≠ s2) :
    formatTimestamp ⟨y, mo, d, h, mi, s1⟩ ≠ formatTimestamp ⟨y, mo, d, h, mi, s2⟩ := by
  intro he
  simp only [formatTimestamp] at he
  exact padZero_two_inj s1 hs1 s2 hs2 hne (string_append_left_cancel he)

/-- Runs whose rendered timestamps differ get distinct output directories. -/
theorem output_subdir_ne (dirp title : String) (t1 t2 : Timestamp)
    (h : formatTimestamp t1 ≠ formatTimestamp t2) :
    output_subdir dirp title t1 ≠ output_subdir dirp title t2 := by
  intro he
  simp only [output_subdir] at he
  exact h (string_append_left_cancel he)

/-- The sanitized title never exceeds 50 characters. -/
theorem safe_title_length_le (title : String) : (safe_title title).length ≤ 50 := by
  have h : (safe_title title).length =
      ((title.toList.filter fun c =>
        pyIsWordChar c || pyIsSpaceChar c || c = '-').take 50).length := rfl
  rw [h, List.length_take]
  exact Nat.min_le_left _ _

/-- C7: the sanitized name of `"Für Elise: Theme!!"` is `"Für Elise Theme"`
— it contains no colon and no exclamation mark; every sanitized title is
truncated to at most 50 characters; runs with distinct rendered timestamps
get distinct output directories, and in particular two captures of the same
title one second apart (seconds field differing, both in range) produce two
distinct directories. -/
theorem c7_safe_output_dir :
    safe_title "Für Elise: Theme!!" = "Für Elise Theme" ∧
    ':' ∉ (safe_title "Für Elise: Theme!!").toList ∧
    '!' ∉ (safe_title "Für Elise: Theme!!").toList ∧
    (∀ title : String, (safe_title title).length ≤ 50) ∧
    (∀ (dirp title : String) (t1 t2 : Timestamp),
        formatTimestamp t1 ≠ formatTimestamp t2 →
        output_subdir dirp title t1 ≠ output_subdir dirp title t2) ∧
    (∀ (dirp title : String) (y mo d h mi s1 s2 : Nat), s1 < 60 → s2 < 60 →
        s1 ≠ s2 →
        output_subdir dirp title ⟨y, mo, d, h, mi, s1⟩ ≠
          output_subdir dirp title ⟨y, mo, d, h, mi, s2⟩) := by
  refine ⟨by decide, by decide, by decide, safe_title_length_le,
    fun dirp title t1 t2 h => output_subdir_ne dirp title t1 t2 h,
    fun dirp title y mo d h mi s1 s2 hs1 hs2 hne =>
      output_subdir_ne dirp title _ _
        (formatTimestamp_second_ne y mo d h mi s1 s2 hs1 hs2 hne)⟩

/-- C7 (witness): the theorem applied to the concrete title and to two
captures one second apart. -/
theorem c7_safe_output_dir_witness :
    safe_title "Für Elise: Theme!!" = "Für Elise Theme" ∧
    (safe_title "Für Elise: Theme!!").length ≤ 50 ∧
    output_subdir "./downloads" "Für Elise: Theme!!" ⟨2024, 7, 8, 10, 20, 30⟩ ≠
      output_subdir "./downloads" "Für Elise: Theme!!" ⟨2024, 7, 8, 10, 20, 31⟩ := by
  have h := c7_safe_output_dir
  exact ⟨h.1, h.2.2.2.1 "Für Elise: Theme!!",
    h.2.2.2.2.2 "./downloads" "Für Elise: Theme!!" 2024 7 8 10 20 30 31
      (by decide) (by decide) (by decide)⟩

end Claims

end Capture
